import Mathlib

/-!
Verification of the `Youngjun-H/investment` repository: a shallow embedding of
`youtube_transcript.py` and `draw_chart.py` in Lean 4, with theorems settling
the specification's claims about them.

Conventions of the embedding:
* Python strings are Lean `String`s; most character processing is done on
  `List Char` (`String.toList` / `String.mk` at the boundary).
* Machine floats carrying prices are modelled as `ℚ`; a pandas `NaN` cell in a
  marker series is `Option.none`.
* A call into an external collaborator (market-data provider, transcript
  provider, matplotlib, the filesystem) is a field of an environment record;
  an exception raised by such a call is an `Except.error`.
-/

namespace Investment

/-! ### Model of `urllib.parse` as used by `extract_video_id_urllib`

`urlparse` / `parse_qs` are modelled after CPython's `urllib.parse` with the
default arguments used in the source (`allow_fragments=True`,
`keep_blank_values=False`, separator `&`).  Percent-decoding is modelled
byte-wise (faithful for single-byte sequences). -/

/-- Characters CPython accepts inside a URL scheme. -/
def isSchemeChar (c : Char) : Bool :=
  c.isAlphanum || c == '+' || c == '-' || c == '.'

/-- CPython `urlsplit` scheme handling: if the text before the first `':'` is a
non-empty run of scheme characters starting with an ASCII letter, it is the
scheme (lower-cased) and the rest follows the colon; otherwise there is no
scheme. Returns `(scheme, rest)`. -/
def splitScheme (cs : List Char) : List Char × List Char :=
  match cs.findIdx? (fun c => c == ':') with
  | none => ([], cs)
  | some i =>
    let before := cs.take i
    if 0 < i ∧ (cs.headD ' ').isAlpha = true ∧ before.all isSchemeChar = true then
      (before.map Char.toLower, cs.drop (i + 1))
    else ([], cs)

/-- CPython `urlsplit` netloc handling: after the scheme, a leading `//` starts
the network location, which extends to the first `/`, `?` or `#`.
Returns `(netloc, rest)`. -/
def splitNetloc (cs : List Char) : List Char × List Char :=
  match cs with
  | '/' :: '/' :: rest =>
    let p := fun c => !(c == '/' || c == '?' || c == '#')
    (rest.takeWhile p, rest.dropWhile p)
  | _ => ([], cs)

/-- Split at the first occurrence of `sep`: `(before, some after)` when `sep`
occurs, `(cs, none)` otherwise. Models Python `str.split(sep, 1)`. -/
def breakAtFirst (sep : Char) : List Char → List Char × Option (List Char)
  | [] => ([], none)
  | c :: rest =>
    if c = sep then ([], some rest)
    else
      let r := breakAtFirst sep rest
      (c :: r.1, r.2)

/-- The components of a parsed URL that the source consults. -/
structure UrlParts where
  scheme : List Char
  netloc : List Char
  path : List Char
  query : List Char
  fragment : List Char
deriving DecidableEq

/-- Model of `urllib.parse.urlparse` restricted to the components the source
reads: scheme split, `//`-netloc split, then fragment split at the first `#`
and query split at the first `?`, in CPython's order. -/
def urlparse (url : String) : UrlParts :=
  let sr := splitScheme url.toList
  let nr := splitNetloc sr.2
  let fr := breakAtFirst '#' nr.2
  let qr := breakAtFirst '?' fr.1
  ⟨sr.1, nr.1, qr.1, qr.2.getD [], fr.2.getD []⟩

/-- Model of the `hostname` property of a CPython parse result: the part of
the netloc after the last `@` and before the first `:`, lower-cased; `none`
when that part is empty. -/
def hostnameOf (netloc : List Char) : Option String :=
  let hostinfo := (netloc.reverse.takeWhile (fun c => !(c == '@'))).reverse
  let host := hostinfo.takeWhile (fun c => !(c == ':'))
  if host = [] then none else some (String.mk (host.map Char.toLower))

/-- Numeric value of a hexadecimal digit. -/
def hexDigitVal (c : Char) : Option ℕ :=
  if '0' ≤ c ∧ c ≤ '9' then some (c.toNat - '0'.toNat)
  else if 'a' ≤ c ∧ c ≤ 'f' then some (c.toNat - 'a'.toNat + 10)
  else if 'A' ≤ c ∧ c ≤ 'F' then some (c.toNat - 'A'.toNat + 10)
  else none

/-- Percent-decoding of `%XX` escapes, one byte per escape; a malformed escape
is left as-is, as in CPython `unquote`. -/
def percentDecode : List Char → List Char
  | '%' :: a :: b :: rest =>
    match hexDigitVal a, hexDigitVal b with
    | some hi, some lo => Char.ofNat (16 * hi + lo) :: percentDecode rest
    | _, _ => '%' :: percentDecode (a :: b :: rest)
  | c :: rest => c :: percentDecode rest
  | [] => []

/-- Model of `urllib.parse.unquote_plus`: `+` becomes a space, then
percent-escapes are decoded. -/
def unquotePlus (cs : List Char) : List Char :=
  percentDecode (cs.map (fun c => if c = '+' then ' ' else c))

/-- Split a character list on every occurrence of `sep`; models Python
`str.split(sep)` (so the empty string yields one empty field). -/
def splitListOn (sep : Char) : List Char → List (List Char)
  | [] => [[]]
  | c :: rest =>
    match splitListOn sep rest with
    | [] => [[]]
    | g :: gs => if c = sep then [] :: g :: gs else (c :: g) :: gs

/-- First split on `sep`, as `some (before, after)`, or `none` when `sep` is
absent. Models Python `str.partition` success and failure. -/
def splitFirstOn (sep : Char) : List Char → Option (List Char × List Char)
  | [] => none
  | c :: rest =>
    if c = sep then some ([], rest)
    else
      match splitFirstOn sep rest with
      | none => none
      | some r => some (c :: r.1, r.2)

/-- Model of `urllib.parse.parse_qsl` with default arguments: fields split on
`&`; a field with no `=` or with an empty value is dropped
(`keep_blank_values=False`); names and values are plus/percent-decoded. -/
def parse_qsl (qs : List Char) : List (String × String) :=
  (splitListOn '&' qs).filterMap fun nv =>
    match splitFirstOn '=' nv with
    | none => none
    | some r =>
      if r.2 = [] then none
      else some (String.mk (unquotePlus r.1), String.mk (unquotePlus r.2))

/-- The list of values bound to key `v` in a parsed query string, in order;
this is `parse_qs(qs)['v']` (the dict groups values per key in order). -/
def vValues (pairs : List (String × String)) : List String :=
  pairs.filterMap fun p => if p.1 = "v" then some p.2 else none

/-- Model of `parse_qs(query).get('v', [None])[0]`: the first `v` value when
one exists, else `None`. -/
def qsGetV (pairs : List (String × String)) : Option String :=
  (vValues pairs).head?

/-- Embedding of `extract_video_id_urllib` (`src/youtube_transcript.py`,
lines 5–13). -/
def extract_video_id_urllib (url : String) : Option String :=
  let p := urlparse url
  match hostnameOf p.netloc with
  | some h =>
    if h = "www.youtube.com" ∨ h = "youtube.com" ∨ h = "youtu.be" then
      if h = "youtu.be" then some (String.mk (p.path.drop 1))
      else qsGetV (parse_qsl p.query)
    else none
  | none => none

/-! ### Model of `main` in `src/youtube_transcript.py` -/

/-- One caption unit of a transcript, as returned by the transcript provider
(only `text` is consumed by the script). -/
structure Snippet where
  text : String
  start : ℚ
  duration : ℚ
deriving DecidableEq

/-- The external collaborators of the transcript script: the transcript
provider (`YouTubeTranscriptApi.fetch`, restricted to Korean) and the
filesystem write of the output file.  An `Except.error` models a raised
exception. -/
structure TranscriptEnv where
  fetch : Option String → Except String (List Snippet)
  write : String → String → Except String Unit

/-- Python `f"...{x}..."` rendering of a value that may be `None`. -/
def pyStrOpt : Option String → String
  | none => "None"
  | some s => s

/-- The hard-coded video link in `main` (`src/youtube_transcript.py`,
line 18). -/
def video_link : String := "https://www.youtube.com/watch?v=BIvuigQkelk"

/-- Embedding of `main` (`src/youtube_transcript.py`, lines 15–31).  The
function body has no `try`/`except`, so a raised exception from the fetch or
the file write propagates out; the model returns it as an `Except.error`.  On
success the result carries the output filename, the file's content (each
snippet's text followed by a newline) and the reported snippet count. -/
def transcript_main (env : TranscriptEnv) : Except String (String × String × ℕ) :=
  let video_id := extract_video_id_urllib video_link
  match env.fetch video_id with
  | Except.error e => Except.error e
  | Except.ok transcript =>
    let output_filename := "transcript_" ++ pyStrOpt video_id ++ ".txt"
    let content := String.join (transcript.map (fun s => s.text ++ "\n"))
    match env.write output_filename content with
    | Except.error e => Except.error e
    | Except.ok _ => Except.ok (output_filename, content, transcript.length)

/-! ### Model of `src/draw_chart.py` -/

/-- The configuration dataclass `ChartConfig` (`src/draw_chart.py`,
lines 27–56); only the fields that influence the modelled computation are
kept with their default values, the purely cosmetic colour/size strings are
consumed opaquely by the plot stage. -/
structure ChartConfig where
  CHART_PERIOD_DAYS : ℕ := 180
  EMA_PERIODS : ℕ × ℕ := (10, 60)
deriving DecidableEq

/-- A pandas DataFrame as the chart script uses one: a date index (dates as
`YYYYMMDD` numerals) and labelled columns of rational values. -/
structure Frame where
  index : List ℕ
  cols : List (String × List ℚ)
deriving DecidableEq

/-- pandas `df.empty`: true when either axis is empty. -/
def Frame.isEmpty (df : Frame) : Bool :=
  df.index.isEmpty || df.cols.isEmpty

/-- pandas `df[label]`: the first column with the given label, when any. -/
def Frame.col (df : Frame) (label : String) : Option (List ℚ) :=
  List.lookup label df.cols

/-- The column relabelling of `get_stock_data` (`src/draw_chart.py`,
lines 131–138): the five provider labels map to their canonical names, any
other label is kept. -/
def renameLabel (s : String) : String :=
  if s = "시가" then "Open"
  else if s = "고가" then "High"
  else if s = "저가" then "Low"
  else if s = "종가" then "Close"
  else if s = "거래량" then "Volume"
  else s

/-- pandas `df.rename(columns=column_mapping)` (`src/draw_chart.py`,
line 139): labels change, index and cell data do not. -/
def rename_columns (df : Frame) : Frame :=
  ⟨df.index, df.cols.map (fun c => (renameLabel c.1, c.2))⟩

/-- Python truthiness of an optional string (`if ticker:` / `if not ticker:`
in the source): `None` and the empty string are falsy. -/
def pyTruthyStr : Option String → Bool
  | none => false
  | some s => s ≠ ""

/-- The external collaborators of the chart script.  `cache` is the
name→ticker dict built by `_load_ticker_cache`; `tickerListCall` is
`stock.get_market_ticker_list()`; `strptime` is `datetime.strptime(·,
'%Y%m%d')` (`none` models a raised `ValueError`); `fetchOHLCV` is
`stock.get_market_ohlcv(...)` for the run's window; `tickerNameCall` is
`stock.get_market_ticker_name`; `plotOk` / `saveOk` tell whether
`mpf.plot` (with its `make_addplot` inputs) and `fig.savefig` succeed.
An `Except.error` models a raised exception. -/
structure Env where
  cache : List (String × String)
  tickerListCall : Except String (List String)
  strptime : String → Option ℕ
  fetchOHLCV : Except String Frame
  tickerNameCall : String → Except String String
  plotOk : Bool
  saveOk : Bool

/-- Embedding of `StockDataManager.get_ticker_by_name` (`src/draw_chart.py`,
lines 98–117): the cache is consulted first (a truthy hit is returned); else
the input is returned when it is itself in the market ticker list; else
`None`.  The surrounding `try`/`except` turns a raised exception from the
ticker-list call into `None`. -/
def get_ticker_by_name (env : Env) (name : String) : Option String :=
  let ticker := List.lookup name env.cache
  if pyTruthyStr ticker then ticker
  else
    match env.tickerListCall with
    | Except.error _ => none
    | Except.ok lst => if name ∈ lst then some name else none

/-- Embedding of `StockDataManager.get_stock_data` (`src/draw_chart.py`,
lines 119–146).  The ticker and the date window are forwarded to the provider
unchanged, so the provider's answer for this run is the environment field
`fetchOHLCV`.  A raised exception is caught and becomes `None`; an empty
frame becomes `None`; otherwise the frame is returned with its columns
renamed to the canonical labels. -/
def get_stock_data (env : Env) : Option Frame :=
  match env.fetchOHLCV with
  | Except.error _ => none
  | Except.ok df => if df.isEmpty then none else some (rename_columns df)

/-! #### `TechnicalIndicator.calculate_ema`

`Series.ewm(span=s).mean()` with pandas' default `adjust=True` computes, at
position `t` over observations `x_0 … x_t`,
`(Σ_{i=0..t} β^i · x_{t-i}) / (Σ_{i=0..t} β^i)` with `β = 1 - 2/(s+1)`;
the defs below are that documented formula, with the list of the `t+1`
most recent observations passed most-recent-first. -/

/-- The smoothing factor `α = 2 / (span + 1)` of a span-parameterised EWM. -/
def emaAlpha (span : ℕ) : ℚ := 2 / (span + 1)

/-- Numerator `Σ β^i · r_i` of the adjusted EWM mean, where `r` lists the
observations most-recent-first. -/
def ewmNum (β : ℚ) : List ℚ → ℚ
  | [] => 0
  | x :: xs => x + β * ewmNum β xs

/-- Denominator `Σ_{i<n} β^i` of the adjusted EWM mean over `n`
observations. -/
def ewmDen (β : ℚ) : ℕ → ℚ
  | 0 => 0
  | n + 1 => 1 + β * ewmDen β n

/-- pandas `data.ewm(span=span).mean()`: at each position the weighted mean
of the observations so far, with geometrically decaying weights. -/
def ewmMean (span : ℕ) (xs : List ℚ) : List ℚ :=
  let β := 1 - emaAlpha span
  (List.range xs.length).map fun t =>
    ewmNum β ((xs.take (t + 1)).reverse) / ewmDen β (t + 1)

/-- Embedding of `TechnicalIndicator.calculate_ema` (`src/draw_chart.py`,
lines 189–201): the short-span and long-span EWM means of the series.  The
body is a pure computation on a well-formed series, so its internal
`try`/`except` arm is dead. -/
def calculate_ema (data : List ℚ) (periods : ℕ × ℕ) : List ℚ × List ℚ :=
  (ewmMean periods.1 data, ewmMean periods.2 data)

/-! #### `TechnicalIndicator.create_trade_markers` -/

/-- `pd.Series(float('nan'), index=df.index)`: an all-`NaN` series aligned to
the index. -/
def nanSeries (index : List ℕ) : List (Option ℚ) :=
  index.map fun _ => (none : Option ℚ)

/-- `series.loc[d] = p`: every position whose index label equals `d` is set
to `p`. -/
def setLoc (index : List ℕ) (s : List (Option ℚ)) (d : ℕ) (p : ℚ) :
    List (Option ℚ) :=
  (index.zip s).map fun xi => if xi.1 = d then some p else xi.2

/-- One marker series of `create_trade_markers`: an all-`NaN` series over the
frame's index, with the price written at the date's position when the date is
in the index. -/
def markerSeries (index : List ℕ) (d : ℕ) (p : ℚ) : List (Option ℚ) :=
  if d ∈ index then setLoc index (nanSeries index) d p else nanSeries index

/-- Embedding of `TechnicalIndicator.create_trade_markers`
(`src/draw_chart.py`, lines 203–223): the buy and sell marker series over the
frame's date index.  The body only builds and indexes aligned series, so its
internal `try`/`except` arm is dead. -/
def create_trade_markers (index : List ℕ) (buy_date : ℕ) (buy_price : ℚ)
    (sell_date : ℕ) (sell_price : ℚ) :
    List (Option ℚ) × List (Option ℚ) :=
  (markerSeries index buy_date buy_price, markerSeries index sell_date sell_price)

/-! #### `ChartGenerator.generate_trade_chart` -/

/-- The chart output filename
`f"{stock_display_name}({ticker})_{buy_date_str}-{sell_date_str}_trade.png"`
(`src/draw_chart.py`, line 300). -/
def chartFilename (display ticker buy_date_str sell_date_str : String) : String :=
  display ++ "(" ++ ticker ++ ")_" ++ buy_date_str ++ "-" ++ sell_date_str
    ++ "_trade.png"

/-- The pipeline stages of `generate_trade_chart`, recorded as they
complete. -/
inductive Stage where
  | lookup
  | dateparse
  | fetch
  | indicators
  | markers
  | style
  | plot
  | save
deriving DecidableEq

deriving instance DecidableEq for Except

/-- The observable outcome of one `generate_trade_chart` run, before the
outer `try`/`except` is applied: the returned value or the raised exception,
the stages that completed, the derived series, the frame handed to
`mpf.plot`, and the saved file's name. -/
structure RunResult where
  outcome : Except String Bool
  stages : List Stage
  emas : Option (List ℚ × List ℚ)
  markers : Option (List (Option ℚ) × List (Option ℚ))
  plotted : Option Frame
  savedFile : Option String
deriving DecidableEq

/-- The inputs of `generate_trade_chart` (`src/draw_chart.py`,
lines 237–239). -/
structure Inputs where
  stock_name : String
  buy_date_str : String
  buy_price : ℚ
  sell_date_str : String
  sell_price : ℚ

/-- The body of `ChartGenerator.generate_trade_chart` (`src/draw_chart.py`,
lines 241–337), without the outer `try`/`except`: ticker lookup (a falsy
result returns `False`), `strptime` of both trade dates (a `ValueError`
raises), data fetch (a `None` returns `False`), EMA and marker derivation,
the always-succeeding style creation (`create_custom_style` catches its own
failures and falls back to a default style), display-name lookup and filename
construction, plot, save. -/
def generate_body (cfg : ChartConfig) (env : Env) (inp : Inputs) : RunResult :=
  let ticker? := get_ticker_by_name env inp.stock_name
  match ticker? with
  | none => ⟨Except.ok false, [Stage.lookup], none, none, none, none⟩
  | some ticker =>
    if ticker = "" then ⟨Except.ok false, [Stage.lookup], none, none, none, none⟩
    else
      match env.strptime inp.buy_date_str with
      | none =>
        ⟨Except.error "ValueError", [Stage.lookup], none, none, none, none⟩
      | some buy_date =>
        match env.strptime inp.sell_date_str with
        | none =>
          ⟨Except.error "ValueError", [Stage.lookup], none, none, none, none⟩
        | some sell_date =>
          match get_stock_data env with
          | none =>
            ⟨Except.ok false, [Stage.lookup, Stage.dateparse, Stage.fetch],
              none, none, none, none⟩
          | some df =>
            match df.col "Close" with
            | none =>
              ⟨Except.error "KeyError",
                [Stage.lookup, Stage.dateparse, Stage.fetch],
                none, none, none, none⟩
            | some closes =>
              let emas := calculate_ema closes cfg.EMA_PERIODS
              let markers := create_trade_markers df.index buy_date
                inp.buy_price sell_date inp.sell_price
              match env.tickerNameCall ticker with
              | Except.error e =>
                ⟨Except.error e,
                  [Stage.lookup, Stage.dateparse, Stage.fetch,
                    Stage.indicators, Stage.markers, Stage.style],
                  some emas, some markers, none, none⟩
              | Except.ok display =>
                let filename := chartFilename display ticker
                  inp.buy_date_str inp.sell_date_str
                if env.plotOk then
                  if env.saveOk then
                    ⟨Except.ok true,
                      [Stage.lookup, Stage.dateparse, Stage.fetch,
                        Stage.indicators, Stage.markers, Stage.style,
                        Stage.plot, Stage.save],
                      some emas, some markers, some df, some filename⟩
                  else
                    ⟨Except.error "savefig",
                      [Stage.lookup, Stage.dateparse, Stage.fetch,
                        Stage.indicators, Stage.markers, Stage.style,
                        Stage.plot],
                      some emas, some markers, some df, none⟩
                else
                  ⟨Except.error "plot",
                    [Stage.lookup, Stage.dateparse, Stage.fetch,
                      Stage.indicators, Stage.markers, Stage.style],
                    some emas, some markers, none, none⟩

/-- Embedding of `ChartGenerator.generate_trade_chart` itself: the body runs
under a catch-all `try`/`except` that logs the exception and returns
`False`. -/
def generate_trade_chart (cfg : ChartConfig) (env : Env) (inp : Inputs) : Bool :=
  match (generate_body cfg env inp).outcome with
  | Except.ok b => b
  | Except.error _ => false

/-! ### Concrete sample data for closed instances -/

/-- `ChartConfig()` with its default field values. -/
def defaultChartConfig : ChartConfig := ⟨180, (10, 60)⟩

/-- A two-row OHLCV frame as the provider returns it (Korean labels). -/
def sampleFrame : Frame :=
  ⟨[20250219, 20250625],
    [("시가", [100, 102]), ("고가", [103, 104]), ("저가", [99, 100]),
      ("종가", [102, 103]), ("거래량", [1000, 1200])]⟩

/-- An environment in which every stage of the chart pipeline succeeds. -/
def sampleEnv : Env :=
  ⟨[("SamsungElectronics", "005930")],
    Except.ok ["005930"],
    (fun s => if s = "20250219" then some 20250219
      else if s = "20250625" then some 20250625 else none),
    Except.ok sampleFrame,
    (fun _ => Except.ok "Samsung"),
    true, true⟩

/-- `sampleEnv`, except that the provider returns an empty frame. -/
def sampleEmptyEnv : Env :=
  ⟨[("SamsungElectronics", "005930")],
    Except.ok ["005930"],
    (fun s => if s = "20250219" then some 20250219
      else if s = "20250625" then some 20250625 else none),
    Except.ok ⟨[], []⟩,
    (fun _ => Except.ok "Samsung"),
    true, true⟩

/-- The trade inputs matching `sampleEnv`. -/
def sampleInputs : Inputs :=
  ⟨"SamsungElectronics", "20250219", 102, "20250625", 103⟩

/-- A transcript environment in which fetch and write both succeed. -/
def sampleTranscriptEnv : TranscriptEnv :=
  ⟨fun _ => Except.ok [⟨"hello", 0, 1⟩, ⟨"world", 1, 1⟩],
    fun _ _ => Except.ok ()⟩

/-! ### Helper lemmas -/

lemma mem_of_lookup_eq_some {l : List (String × String)} {name t : String}
    (h : List.lookup name l = some t) : (name, t) ∈ l := by
  induction l with
  | nil => simp [List.lookup] at h
  | cons p rest ih =>
    rcases p with ⟨k, v⟩
    by_cases hk : name = k
    · subst hk
      simp [List.lookup] at h
      subst h
      exact List.mem_cons_self _ _
    · simp [List.lookup, beq_false_of_ne hk] at h
      exact List.mem_cons_of_mem _ (ih h)

lemma extract_of_host_shortened (url : String)
    (h : hostnameOf (urlparse url).netloc = some "youtu.be") :
    extract_video_id_urllib url = some (String.mk ((urlparse url).path.drop 1)) := by
  simp only [extract_video_id_urllib]
  rw [h]
  simp

lemma extract_of_host_standard (url : String) (h' : String)
    (h : hostnameOf (urlparse url).netloc = some h')
    (hh : h' = "youtube.com" ∨ h' = "www.youtube.com") :
    extract_video_id_urllib url = qsGetV (parse_qsl (urlparse url).query) := by
  simp only [extract_video_id_urllib]
  rw [h]
  rcases hh with hh | hh <;> subst hh <;> simp

lemma extract_of_host_other (url : String)
    (h : ∀ h', hostnameOf (urlparse url).netloc = some h' →
      h' ≠ "www.youtube.com" ∧ h' ≠ "youtube.com" ∧ h' ≠ "youtu.be") :
    extract_video_id_urllib url = none := by
  simp only [extract_video_id_urllib]
  cases hh : hostnameOf (urlparse url).netloc with
  | none => simp
  | some h' =>
    rcases h h' hh with ⟨h1, h2, h3⟩
    simp [h1, h2, h3]

lemma setLoc_nanSeries (index : List ℕ) (d : ℕ) (p : ℚ) :
    setLoc index (nanSeries index) d p
      = index.map (fun x => if x = d then some p else none) := by
  induction index with
  | nil => rfl
  | cons a rest ih =>
    simp only [setLoc, nanSeries, List.map_cons, List.zip_cons_cons] at ih ⊢
    rw [ih]

lemma markerSeries_of_mem {index : List ℕ} {d : ℕ} (p : ℚ) (h : d ∈ index) :
    markerSeries index d p
      = index.map (fun x => if x = d then some p else none) := by
  rw [markerSeries, if_pos h, setLoc_nanSeries]

lemma markerSeries_of_not_mem {index : List ℕ} {d : ℕ} (p : ℚ) (h : d ∉ index) :
    markerSeries index d p = index.map (fun _ => none) := by
  rw [markerSeries, if_neg h]
  rfl

lemma markerSeries_length (index : List ℕ) (d : ℕ) (p : ℚ) :
    (markerSeries index d p).length = index.length := by
  by_cases h : d ∈ index
  · rw [markerSeries_of_mem p h, List.length_map]
  · rw [markerSeries_of_not_mem p h, List.length_map]

lemma markerSeries_countP_of_mem {index : List ℕ} {d : ℕ} (p : ℚ)
    (hnd : index.Nodup) (h : d ∈ index) :
    (markerSeries index d p).countP (fun o => o.isSome) = 1 := by
  rw [markerSeries_of_mem p h, List.countP_map]
  have hf : ((fun o => Option.isSome o) ∘ fun x => if x = d then some p else none)
      = fun x => x == d := by
    funext x
    by_cases hx : x = d <;> simp [hx]
  rw [hf]
  exact List.count_eq_one_of_mem hnd h

lemma get_stock_data_eq_some {env : Env} {df : Frame}
    (h : get_stock_data env = some df) :
    ∃ df0, env.fetchOHLCV = Except.ok df0 ∧ df0.isEmpty = false ∧
      df = rename_columns df0 := by
  unfold get_stock_data at h
  rcases hf : env.fetchOHLCV with e | df0 <;> rw [hf] at h <;> dsimp only at h
  · simp at h
  · by_cases he : df0.isEmpty = true
    · rw [if_pos he] at h
      simp at h
    · rw [if_neg he] at h
      exact ⟨df0, rfl, by simpa using he, (Option.some.inj h).symm⟩

lemma generate_body_final_inv (cfg : ChartConfig) (env : Env) (inp : Inputs) :
    (∀ f, (generate_body cfg env inp).savedFile = some f →
      ∃ t d, get_ticker_by_name env inp.stock_name = some t ∧
        env.tickerNameCall t = Except.ok d ∧
        f = chartFilename d t inp.buy_date_str inp.sell_date_str) ∧
    (∀ fr, (generate_body cfg env inp).plotted = some fr →
      ∃ df0, env.fetchOHLCV = Except.ok df0 ∧ df0.isEmpty = false ∧
        fr = rename_columns df0) := by
  unfold generate_body
  rcases hgt : get_ticker_by_name env inp.stock_name with _ | t
  · simp
  · dsimp only
    by_cases ht : t = ""
    · simp [ht]
    · rw [if_neg ht]
      rcases hb : env.strptime inp.buy_date_str with _ | bd
      · simp
      · dsimp only
        rcases hs : env.strptime inp.sell_date_str with _ | sd
        · simp
        · dsimp only
          rcases hd : get_stock_data env with _ | df
          · simp
          · dsimp only
            rcases hc : df.col "Close" with _ | closes
            · simp
            · dsimp only
              rcases hn : env.tickerNameCall t with e | disp
              · simp
              · dsimp only
                by_cases hp : env.plotOk = true
                · by_cases hv : env.saveOk = true
                  · rw [if_pos hp, if_pos hv]
                    constructor
                    · intro f hf
                      exact ⟨t, disp, rfl, hn, (Option.some.inj hf).symm⟩
                    · intro fr hfr
                      rcases get_stock_data_eq_some hd with ⟨df0, h1, h2, h3⟩
                      exact ⟨df0, h1, h2, (Option.some.inj hfr).symm.trans h3⟩
                  · rw [if_pos hp, if_neg hv]
                    constructor
                    · intro f hf
                      simp at hf
                    · intro fr hfr
                      rcases get_stock_data_eq_some hd with ⟨df0, h1, h2, h3⟩
                      exact ⟨df0, h1, h2, (Option.some.inj hfr).symm.trans h3⟩
                · rw [if_neg hp]
                  simp

lemma ewmDen_nonneg {β : ℚ} (hβ : 0 ≤ β) (n : ℕ) : 0 ≤ ewmDen β n := by
  induction n with
  | zero => simp [ewmDen]
  | succ n ih =>
    rw [ewmDen]
    have := mul_nonneg hβ ih
    linarith

lemma ewmDen_pos {β : ℚ} (hβ : 0 ≤ β) (n : ℕ) : 0 < ewmDen β (n + 1) := by
  rw [ewmDen]
  have := mul_nonneg hβ (ewmDen_nonneg hβ n)
  linarith

lemma ewmNum_replicate (β c : ℚ) (n : ℕ) :
    ewmNum β (List.replicate n c) = c * ewmDen β n := by
  induction n with
  | zero => simp [ewmNum, ewmDen]
  | succ n ih =>
    rw [List.replicate_succ, ewmNum, ih, ewmDen]
    ring

lemma one_sub_emaAlpha_nonneg {span : ℕ} (h : 1 ≤ span) :
    0 ≤ 1 - emaAlpha span := by
  rw [emaAlpha, sub_nonneg]
  have hpos : (0 : ℚ) < (span : ℚ) + 1 := by positivity
  rw [div_le_one hpos]
  have hs : (1 : ℚ) ≤ (span : ℚ) := by exact_mod_cast h
  linarith

lemma ewmMean_replicate {span : ℕ} (h : 1 ≤ span) (n : ℕ) (c : ℚ) :
    ewmMean span (List.replicate n c) = List.replicate n c := by
  have hβ : 0 ≤ 1 - emaAlpha span := one_sub_emaAlpha_nonneg h
  simp only [ewmMean, List.length_replicate]
  refine List.eq_replicate_iff.mpr ⟨by simp, fun b hb => ?_⟩
  rcases List.mem_map.mp hb with ⟨t, ht, rfl⟩
  have htn : t + 1 ≤ n := List.mem_range.mp ht
  rw [List.take_replicate, Nat.min_eq_left htn, List.reverse_replicate,
    ewmNum_replicate, mul_div_assoc,
    div_self (ne_of_gt (ewmDen_pos hβ t)), mul_one]

lemma ewmMean_head (span : ℕ) (x : ℚ) (rest : List ℚ) :
    (ewmMean span (x :: rest)).head? = some x := by
  simp only [ewmMean, List.length_cons]
  rw [List.range_succ_eq_map]
  simp [ewmNum, ewmDen]

end Investment

namespace Investment

/-! ### Theorems settling the claims -/

/-- C1.  For every OHLCV frame (its date index is strictly increasing) and
every trade, `create_trade_markers` returns two series aligned to the frame's
date index; when a trade date is in the index, its marker series holds the
given price exactly at that date and is empty everywhere else (exactly one
non-empty entry); when the date is absent the series is entirely empty. -/
theorem create_trade_markers_spec (index : List ℕ)
    (hord : index.Pairwise (· < ·)) (bd sd : ℕ) (bp sp : ℚ) :
    ((create_trade_markers index bd bp sd sp).1.length = index.length ∧
      (create_trade_markers index bd bp sd sp).2.length = index.length) ∧
    (bd ∈ index →
      (create_trade_markers index bd bp sd sp).1
          = index.map (fun x => if x = bd then some bp else none) ∧
      (create_trade_markers index bd bp sd sp).1.countP (fun o => o.isSome) = 1) ∧
    (bd ∉ index → ∀ o ∈ (create_trade_markers index bd bp sd sp).1, o = none) ∧
    (sd ∈ index →
      (create_trade_markers index bd bp sd sp).2
          = index.map (fun x => if x = sd then some sp else none) ∧
      (create_trade_markers index bd bp sd sp).2.countP (fun o => o.isSome) = 1) ∧
    (sd ∉ index → ∀ o ∈ (create_trade_markers index bd bp sd sp).2, o = none) := by
  have hnd : index.Nodup := hord.imp (fun hab => Nat.ne_of_lt hab)
  refine ⟨⟨markerSeries_length index bd bp, markerSeries_length index sd sp⟩,
    fun h => ⟨markerSeries_of_mem bp h, markerSeries_countP_of_mem bp hnd h⟩,
    fun h o ho => ?_,
    fun h => ⟨markerSeries_of_mem sp h, markerSeries_countP_of_mem sp hnd h⟩,
    fun h o ho => ?_⟩
  · rw [show (create_trade_markers index bd bp sd sp).1 = markerSeries index bd bp
      from rfl, markerSeries_of_not_mem bp h] at ho
    rcases List.mem_map.mp ho with ⟨x, _, hx⟩
    exact hx.symm
  · rw [show (create_trade_markers index bd bp sd sp).2 = markerSeries index sd sp
      from rfl, markerSeries_of_not_mem sp h] at ho
    rcases List.mem_map.mp ho with ⟨x, _, hx⟩
    exact hx.symm

/-- C1 witness: a three-day frame with the buy date present and the sell date
absent. -/
theorem create_trade_markers_spec_witness :
    (create_trade_markers [20250101, 20250102, 20250103] 20250102 7 20250104 9).1
        = [none, some 7, none] ∧
    (create_trade_markers [20250101, 20250102, 20250103] 20250102 7 20250104 9).2
        = [none, none, none] := by
  have h := create_trade_markers_spec [20250101, 20250102, 20250103]
    (by decide) 20250102 20250104 7 9
  refine ⟨(h.2.1 (by decide)).1.trans (by decide), ?_⟩
  have h2 := h.2.2.2.2 (by decide)
  have hl := h.1.2
  rcases hh : (create_trade_markers [20250101, 20250102, 20250103]
      20250102 7 20250104 9).2 with _ | ⟨a, rest⟩
  · rw [hh] at hl
    simp at hl
  · rw [hh] at h2 hl
    rcases rest with _ | ⟨b, rest2⟩
    · simp at hl
    · rcases rest2 with _ | ⟨c, rest3⟩
      · simp at hl
      · rcases rest3 with _ | _
        · rw [h2 a (by simp), h2 b (by simp), h2 c (by simp)]
        · simp at hl

/-- C4.  For every URL string, `extract_video_id_urllib` returns the path
without its leading slash when the parsed hostname is `youtu.be`, the value of
the `v` query parameter when it is `youtube.com` or `www.youtube.com`, and
`none` for any other hostname; in particular `https://youtu.be/ABC123` yields
`ABC123` and `https://www.youtube.com/watch?v=ABC123` yields `ABC123`. -/
theorem extract_video_id_by_host (url : String) :
    (hostnameOf (urlparse url).netloc = some "youtu.be" →
      extract_video_id_urllib url = some (String.mk ((urlparse url).path.drop 1))) ∧
    (∀ h', hostnameOf (urlparse url).netloc = some h' →
      (h' = "youtube.com" ∨ h' = "www.youtube.com") →
      extract_video_id_urllib url = qsGetV (parse_qsl (urlparse url).query)) ∧
    ((∀ h', hostnameOf (urlparse url).netloc = some h' →
        h' ≠ "www.youtube.com" ∧ h' ≠ "youtube.com" ∧ h' ≠ "youtu.be") →
      extract_video_id_urllib url = none) ∧
    extract_video_id_urllib "https://youtu.be/ABC123" = some "ABC123" ∧
    extract_video_id_urllib "https://www.youtube.com/watch?v=ABC123"
      = some "ABC123" := by
  refine ⟨extract_of_host_shortened url,
    fun h' h hh => extract_of_host_standard url h' h hh,
    extract_of_host_other url, by decide, by decide⟩

/-- C4 witness: the shortened-host branch at a concrete URL. -/
theorem extract_video_id_by_host_witness :
    extract_video_id_urllib "https://youtu.be/xyz"
      = some (String.mk ((urlparse "https://youtu.be/xyz").path.drop 1)) :=
  (extract_video_id_by_host "https://youtu.be/xyz").1 (by decide)

/-- C10.  Edge cases of `extract_video_id_urllib`: a shortened-host URL whose
path is just `/` yields the empty string (not `none`); a standard-host URL
whose query has no `v` parameter yields `none`; when `v` occurs several times
the first value is returned.  Concrete instances included. -/
theorem extract_video_id_edge_cases (url : String) :
    (hostnameOf (urlparse url).netloc = some "youtu.be" →
      (urlparse url).path = ['/'] →
      extract_video_id_urllib url = some "") ∧
    (∀ h', hostnameOf (urlparse url).netloc = some h' →
      (h' = "youtube.com" ∨ h' = "www.youtube.com") →
      vValues (parse_qsl (urlparse url).query) = [] →
      extract_video_id_urllib url = none) ∧
    (∀ h' v vs, hostnameOf (urlparse url).netloc = some h' →
      (h' = "youtube.com" ∨ h' = "www.youtube.com") →
      vValues (parse_qsl (urlparse url).query) = v :: vs →
      extract_video_id_urllib url = some v) ∧
    extract_video_id_urllib "https://youtu.be/" = some "" ∧
    extract_video_id_urllib "https://www.youtube.com/watch" = none ∧
    extract_video_id_urllib "https://www.youtube.com/watch?v=first&v=second"
      = some "first" := by
  refine ⟨?_, ?_, ?_, by decide, by decide, by decide⟩
  · intro h hp
    rw [extract_of_host_shortened url h, hp]
    rfl
  · intro h' h hh hv
    rw [extract_of_host_standard url h' h hh, qsGetV, hv]
    rfl
  · intro h' v vs h hh hv
    rw [extract_of_host_standard url h' h hh, qsGetV, hv]
    rfl

/-- C10 witness: the empty-path shortened-host branch at a concrete URL. -/
theorem extract_video_id_edge_cases_witness :
    extract_video_id_urllib "https://youtu.be/" = some "" :=
  (extract_video_id_edge_cases "https://youtu.be/").1 (by decide) (by decide)

end Investment

namespace Investment

/-- C3.  Over a constant price series of length at least the span, both the
short-span and long-span exponential moving averages of `calculate_ema` are
that constant everywhere (they converge to it), where the weighting is the
standard exponential scheme `Σ βⁱ·x_{t-i} / Σ βⁱ` with `β = 1 - 2/(span+1)`
(`ewmNum`/`ewmDen`/`ewmMean`); and at the first position the EMA equals the
first observation. -/
theorem calculate_ema_spec (c : ℚ) (n : ℕ) (periods : ℕ × ℕ)
    (h1 : 1 ≤ periods.1) (h2 : 1 ≤ periods.2)
    (hn1 : periods.1 ≤ n) (hn2 : periods.2 ≤ n) :
    calculate_ema (List.replicate n c) periods
        = (List.replicate n c, List.replicate n c) ∧
    (∀ (span : ℕ) (x : ℚ) (rest : List ℚ),
      (ewmMean span (x :: rest)).head? = some x) := by
  refine ⟨?_, fun span x rest => ewmMean_head span x rest⟩
  rw [calculate_ema, ewmMean_replicate h1, ewmMean_replicate h2]

/-- C3 witness: the configured spans `(10, 60)` on a constant series of
length 60. -/
theorem calculate_ema_spec_witness :
    calculate_ema (List.replicate 60 (5 : ℚ)) (10, 60)
        = (List.replicate 60 5, List.replicate 60 5) ∧
    (∀ (span : ℕ) (x : ℚ) (rest : List ℚ),
      (ewmMean span (x :: rest)).head? = some x) :=
  calculate_ema_spec 5 60 (10, 60) (by decide) (by decide) (by decide) (by decide)

end Investment

namespace Investment

/-- C2.  `get_ticker_by_name` returns the mapped ticker for a name in the
name→ticker map (whose values, being market tickers, are non-empty); else
returns the input unchanged when it is itself in the market ticker list; else
returns `none` — and on a `none` result, `generate_trade_chart` returns
`False`.  Matching is exact map/list lookup, with no fuzzy or partial
matching. -/
theorem get_ticker_by_name_spec (cfg : ChartConfig) (env : Env)
    (name : String) (inp : Inputs) (lst : List String)
    (hvals : ∀ p ∈ env.cache, p.2 ≠ "")
    (hlist : env.tickerListCall = Except.ok lst) :
    (∀ t, List.lookup name env.cache = some t →
      get_ticker_by_name env name = some t) ∧
    (List.lookup name env.cache = none → name ∈ lst →
      get_ticker_by_name env name = some name) ∧
    (List.lookup name env.cache = none → name ∉ lst →
      get_ticker_by_name env name = none) ∧
    (get_ticker_by_name env name = none → inp.stock_name = name →
      generate_trade_chart cfg env inp = false) := by
  refine ⟨?_, ?_, ?_, ?_⟩
  · intro t ht
    have htne : t ≠ "" := hvals (name, t) (mem_of_lookup_eq_some ht)
    simp [get_ticker_by_name, ht, pyTruthyStr, htne]
  · intro hnone hmem
    simp [get_ticker_by_name, hnone, pyTruthyStr, hlist, hmem]
  · intro hnone hmem
    simp [get_ticker_by_name, hnone, pyTruthyStr, hlist, hmem]
  · intro hnone hsn
    have hgt : get_ticker_by_name env inp.stock_name = none := by
      rw [hsn]
      exact hnone
    simp [generate_trade_chart, generate_body, hgt]

/-- C2 witness: in `sampleEnv`, the known name maps to its ticker, a raw
ticker resolves to itself, and an unknown name resolves to `none` with the
chart run aborting. -/
theorem get_ticker_by_name_spec_witness :
    get_ticker_by_name sampleEnv "SamsungElectronics" = some "005930" ∧
    get_ticker_by_name sampleEnv "005930" = some "005930" ∧
    get_ticker_by_name sampleEnv "Unknown" = none ∧
    generate_trade_chart defaultChartConfig sampleEnv
      ⟨"Unknown", "20250219", 102, "20250625", 103⟩ = false := by
  have h1 := get_ticker_by_name_spec defaultChartConfig sampleEnv
    "SamsungElectronics" sampleInputs ["005930"] (by decide) rfl
  have h2 := get_ticker_by_name_spec defaultChartConfig sampleEnv
    "005930" sampleInputs ["005930"] (by decide) rfl
  have h3 := get_ticker_by_name_spec defaultChartConfig sampleEnv
    "Unknown" ⟨"Unknown", "20250219", 102, "20250625", 103⟩ ["005930"]
    (by decide) rfl
  refine ⟨h1.1 "005930" (by decide), h2.2.1 (by decide) (by decide),
    h3.2.2.1 (by decide) (by decide), h3.2.2.2 ?_ rfl⟩
  exact h3.2.2.1 (by decide) (by decide)

end Investment

namespace Investment

/-- C5.  `generate_trade_chart` never propagates an exception: its outer
catch-all maps every run to a plain boolean — `true` exactly when the body
completed returning `True`, and `false` exactly when the body returned
`False` or any stage raised (the raised exception `e` being logged, not
re-thrown).  This holds for every environment, i.e. whatever any pipeline
stage raises internally. -/
theorem generate_trade_chart_no_raise (cfg : ChartConfig) (env : Env)
    (inp : Inputs) :
    (generate_trade_chart cfg env inp = true ↔
      (generate_body cfg env inp).outcome = Except.ok true) ∧
    (generate_trade_chart cfg env inp = false ↔
      ((generate_body cfg env inp).outcome = Except.ok false ∨
        ∃ e, (generate_body cfg env inp).outcome = Except.error e)) := by
  cases hout : (generate_body cfg env inp).outcome with
  | ok b => cases b <;> simp [generate_trade_chart, hout]
  | error e => simp [generate_trade_chart, hout]

/-- C7.  When the historical-data fetch returns an empty frame (and the
preceding lookup and date-parse stages pass), `get_stock_data` returns
`none` and `generate_trade_chart` returns `false` with no later pipeline
stage performed: the completed stages end at the fetch, and no indicator,
marker, plot or saved file is produced. -/
theorem empty_fetch_aborts (cfg : ChartConfig) (env : Env) (inp : Inputs)
    (df : Frame) (b s : ℕ)
    (hfetch : env.fetchOHLCV = Except.ok df)
    (hempty : df.isEmpty = true)
    (hticker : pyTruthyStr (get_ticker_by_name env inp.stock_name) = true)
    (hbuy : env.strptime inp.buy_date_str = some b)
    (hsell : env.strptime inp.sell_date_str = some s) :
    get_stock_data env = none ∧
    generate_trade_chart cfg env inp = false ∧
    (generate_body cfg env inp).stages
        = [Stage.lookup, Stage.dateparse, Stage.fetch] ∧
    (generate_body cfg env inp).emas = none ∧
    (generate_body cfg env inp).markers = none ∧
    (generate_body cfg env inp).plotted = none ∧
    (generate_body cfg env inp).savedFile = none := by
  have hgsd : get_stock_data env = none := by
    simp [get_stock_data, hfetch, hempty]
  rcases hgt : get_ticker_by_name env inp.stock_name with _ | t
  · rw [hgt] at hticker
    simp [pyTruthyStr] at hticker
  · have htne : t ≠ "" := by
      rw [hgt] at hticker
      simpa [pyTruthyStr] using hticker
    refine ⟨hgsd, ?_, ?_, ?_, ?_, ?_, ?_⟩ <;>
      simp [generate_trade_chart, generate_body, hgt, htne, hbuy, hsell, hgsd]

/-- C7 witness: the all-good environment with an empty provider answer. -/
theorem empty_fetch_aborts_witness :
    get_stock_data sampleEmptyEnv = none ∧
    generate_trade_chart defaultChartConfig sampleEmptyEnv sampleInputs = false ∧
    (generate_body defaultChartConfig sampleEmptyEnv sampleInputs).stages
        = [Stage.lookup, Stage.dateparse, Stage.fetch] ∧
    (generate_body defaultChartConfig sampleEmptyEnv sampleInputs).emas = none ∧
    (generate_body defaultChartConfig sampleEmptyEnv sampleInputs).markers = none ∧
    (generate_body defaultChartConfig sampleEmptyEnv sampleInputs).plotted = none ∧
    (generate_body defaultChartConfig sampleEmptyEnv sampleInputs).savedFile
        = none :=
  empty_fetch_aborts defaultChartConfig sampleEmptyEnv sampleInputs ⟨[], []⟩
    20250219 20250625 rfl (by decide) (by decide) (by decide) (by decide)

end Investment

namespace Investment

/-- C8.  The transcript script's `main` has no error handling: a raised
exception from the transcript fetch, or from the file write, propagates out
of `main` unchanged.  On success it writes each snippet's text on its own
line to `transcript_{video_id}.txt` (here the hard-coded URL's id,
`BIvuigQkelk`) and reports the total snippet count. -/
theorem transcript_main_spec (env : TranscriptEnv) :
    extract_video_id_urllib video_link = some "BIvuigQkelk" ∧
    (∀ e, env.fetch (some "BIvuigQkelk") = Except.error e →
      transcript_main env = Except.error e) ∧
    (∀ snips e, env.fetch (some "BIvuigQkelk") = Except.ok snips →
      env.write "transcript_BIvuigQkelk.txt"
          (String.join (snips.map (fun s => s.text ++ "\n"))) = Except.error e →
      transcript_main env = Except.error e) ∧
    (∀ snips, env.fetch (some "BIvuigQkelk") = Except.ok snips →
      env.write "transcript_BIvuigQkelk.txt"
          (String.join (snips.map (fun s => s.text ++ "\n"))) = Except.ok () →
      transcript_main env = Except.ok ("transcript_BIvuigQkelk.txt",
        String.join (snips.map (fun s => s.text ++ "\n")), snips.length)) := by
  have hid : extract_video_id_urllib video_link = some "BIvuigQkelk" := by decide
  have hfn : "transcript_" ++ "BIvuigQkelk" ++ ".txt"
      = "transcript_BIvuigQkelk.txt" := by decide
  refine ⟨hid, ?_, ?_, ?_⟩
  · intro e he
    simp only [transcript_main]
    rw [hid, he]
  · intro snips e hf hw
    simp only [transcript_main]
    rw [hid, hf]
    simp only [pyStrOpt]
    rw [hfn, hw]
  · intro snips hf hw
    simp only [transcript_main]
    rw [hid, hf]
    simp only [pyStrOpt]
    rw [hfn, hw]

/-- C8 witness: a successful run of the transcript script on a two-snippet
transcript. -/
theorem transcript_main_spec_witness :
    transcript_main sampleTranscriptEnv
      = Except.ok ("transcript_BIvuigQkelk.txt",
          String.join (([⟨"hello", 0, 1⟩, ⟨"world", 1, 1⟩] : List Snippet).map
            (fun s => s.text ++ "\n")),
          ([⟨"hello", 0, 1⟩, ⟨"world", 1, 1⟩] : List Snippet).length) :=
  (transcript_main_spec sampleTranscriptEnv).2.2.2
    [⟨"hello", 0, 1⟩, ⟨"world", 1, 1⟩] rfl rfl

end Investment

namespace Investment

/-- C6.  Whenever `generate_trade_chart` saves a file, its name is exactly
`chartFilename` of the resolved display name, ticker and the two trade date
strings, where `chartFilename d t b s` is the string
`d ++ "(" ++ t ++ ")_" ++ b ++ "-" ++ s ++ "_trade.png"`; being a pure
function of those inputs, identical inputs always yield the identical
filename string. -/
theorem chart_filename_spec (cfg : ChartConfig) (env : Env) (inp : Inputs)
    (f : String) (h : (generate_body cfg env inp).savedFile = some f) :
    (∃ t d, get_ticker_by_name env inp.stock_name = some t ∧
      env.tickerNameCall t = Except.ok d ∧
      f = chartFilename d t inp.buy_date_str inp.sell_date_str) ∧
    (∀ d t b s, chartFilename d t b s
        = d ++ "(" ++ t ++ ")_" ++ b ++ "-" ++ s ++ "_trade.png") :=
  ⟨(generate_body_final_inv cfg env inp).1 f h, fun _ _ _ _ => rfl⟩

/-- C6 witness: the successful sample run saves
`Samsung(005930)_20250219-20250625_trade.png`. -/
theorem chart_filename_spec_witness :
    (∃ t d, get_ticker_by_name sampleEnv sampleInputs.stock_name = some t ∧
      sampleEnv.tickerNameCall t = Except.ok d ∧
      "Samsung(005930)_20250219-20250625_trade.png"
        = chartFilename d t sampleInputs.buy_date_str
            sampleInputs.sell_date_str) ∧
    (∀ d t b s, chartFilename d t b s
        = d ++ "(" ++ t ++ ")_" ++ b ++ "-" ++ s ++ "_trade.png") :=
  chart_filename_spec defaultChartConfig sampleEnv sampleInputs
    "Samsung(005930)_20250219-20250625_trade.png" (by decide)

/-- C9.  The fetched frame is modified only by the column-label rename:
`rename_columns` keeps the index and the column data and maps only the
labels through the fixed provider→canonical mapping; `get_stock_data`
returns exactly the renamed fetched frame (so the rename happens before any
further processing); and the frame handed to the plot stage is exactly that
renamed fetched frame — the EMA and marker stages build new series
(`calculate_ema`, `create_trade_markers` return fresh lists) and leave it
unchanged. -/
theorem rename_only_relabels (df : Frame) :
    (rename_columns df).index = df.index ∧
    (rename_columns df).cols.map Prod.snd = df.cols.map Prod.snd ∧
    (rename_columns df).cols.map Prod.fst
        = (df.cols.map Prod.fst).map renameLabel ∧
    (∀ env df0, env.fetchOHLCV = Except.ok df0 → df0.isEmpty = false →
      get_stock_data env = some (rename_columns df0)) ∧
    (∀ cfg env inp fr, (generate_body cfg env inp).plotted = some fr →
      ∃ df0, env.fetchOHLCV = Except.ok df0 ∧ df0.isEmpty = false ∧
        fr = rename_columns df0) := by
  refine ⟨rfl, ?_, ?_, ?_, ?_⟩
  · simp [rename_columns, List.map_map]
  · simp [rename_columns, List.map_map]
  · intro env df0 hf hne
    simp [get_stock_data, hf, hne]
  · intro cfg env inp fr h
    exact (generate_body_final_inv cfg env inp).2 fr h

/-- C9 witness: the sample provider frame, renamed, is what
`get_stock_data` returns and what reaches the plot stage. -/
theorem rename_only_relabels_witness :
    get_stock_data sampleEnv = some (rename_columns sampleFrame) ∧
    (∃ df0, sampleEnv.fetchOHLCV = Except.ok df0 ∧ df0.isEmpty = false ∧
      rename_columns sampleFrame = rename_columns df0) :=
  ⟨(rename_only_relabels sampleFrame).2.2.2.1 sampleEnv sampleFrame rfl
      (by decide),
    (rename_only_relabels sampleFrame).2.2.2.2 defaultChartConfig sampleEnv
      sampleInputs (rename_columns sampleFrame) (by decide)⟩

end Investment
